import Mathlib

/-!
# A shallow embedding of the `jest-haste-map` build pipeline

This file embeds the core of `packages/jest-haste-map/src/index.js` — the
haste-map build pipeline — as executable Lean definitions, and proves
properties of the embedding.

Modelling conventions:

* JS objects created with `Object.create(null)` (the four sub-tables of a
  `HasteMap`) are association lists over string keys: lookup returns the
  first binding, assignment replaces an existing binding in place or appends
  a new one (JS preserves insertion order of keys), `delete` removes the
  binding.
* The positional metadata tuples (`H.ID`/`H.MTIME`/`H.VISITED`/
  `H.DEPENDENCIES` for files, `H.PATH`/`H.TYPE` for modules) are structures
  with named fields in the same order.
* External collaborators that live outside this repository's core file —
  the two crawlers, the worker that extracts metadata from one file, the
  file system, and the JSON codec — are parameters (oracles) of the
  pipeline functions, constrained only by their interface, exactly as the
  specification treats them.
* Promise-based control flow is embedded sequentially: the coordinator is
  single-threaded, the synchronous loop body of `_buildHasteMap` runs first
  for every file (phase A), and the `.then` handlers of the worker promises
  run afterwards, one at a time, in file order (phase B).  Rejections are
  `Except.error`; `Promise.all` rejects with the first rejection while the
  remaining handlers still run.
* Paths use POSIX separators (`path.sep = '/'`), matching the `fastpath`
  module on non-Windows platforms.
-/

namespace HasteMapSpec

/-! ## Association lists standing for `Object.create(null)` string maps -/

/-- A string-keyed plain mapping with no hidden or inherited keys. -/
abbrev AList (α : Type) : Type := List (String × α)

/-- Property lookup `obj[key]`: the first binding wins. -/
def alookup {α : Type} : AList α → String → Option α
  | [], _ => none
  | (k, v) :: rest, key => if k = key then some v else alookup rest key

/-- Property assignment `obj[key] = v`: replace in place, or append. -/
def aset {α : Type} : AList α → String → α → AList α
  | [], key, v => [(key, v)]
  | (k, w) :: rest, key, v =>
    if k = key then (k, v) :: rest else (k, w) :: aset rest key v

/-- Property deletion `delete obj[key]`. -/
def aerase {α : Type} : AList α → String → AList α
  | [], _ => []
  | (k, w) :: rest, key => if k = key then rest else (k, w) :: aerase rest key

deriving instance DecidableEq for Except

/-! ## The data model (`types/HasteMap`, positional tuples) -/

/-- `FileMetaData = [id, mtime, visited, dependencies]` (indices `H.ID`,
`H.MTIME`, `H.VISITED`, `H.DEPENDENCIES`).  `id = none` stands for the
absent/`null` slot; `some ""` stands for the empty string, which is falsy in
the JS truthiness tests of the source. -/
structure FileMetaData where
  id : Option String
  mtime : Nat
  visited : Bool
  dependencies : List String
deriving DecidableEq, Repr

/-- `ModuleMetaData = [path, type]` (indices `H.PATH`, `H.TYPE`); `type` is
`"module"` or `"package"`. -/
structure ModuleMetaData where
  path : String
  type : String
deriving DecidableEq, Repr

/-- `ModuleMapItem = {[platform]: ModuleMetaData}`. -/
abbrev ModuleMapItem := AList ModuleMetaData

/-- The four sub-tables of an `InternalHasteMap`. -/
structure InternalHasteMap where
  clocks : AList String
  files : AList FileMetaData
  map : AList ModuleMapItem
  mocks : AList String
deriving DecidableEq, Repr

/-- `_createEmptyMap`: all four sub-tables present and empty. -/
def createEmptyMap : InternalHasteMap :=
  { clocks := [], files := [], map := [], mocks := [] }

/-- Modelled from the spec: the generic-platform sentinel
`H.GENERIC_PLATFORM` from `./constants` (not under `src/`); spec scenario 2
fixes it as the key `g`. -/
def GENERIC_PLATFORM : String := "g"

/-- `path.sep + 'node_modules' + path.sep` with POSIX separators. -/
def NODE_MODULES : String := "/node_modules/"

/-- JS truthiness of the `H.ID` slot: `undefined`/`null`/`''` are falsy. -/
def idTruthy : Option String → Bool
  | none => false
  | some s => !(s == "")

/-- Modelled from the spec: the platform extractor
(`lib/getPlatformExtension`, not under `src/`).  "The platform extractor
inspects the double-extension form `Name.<platform>.<ext>` and yields
`<platform>` if it is in the configured platform set, else the generic
sentinel" — here `none` stands for "no platform token", and callers
substitute the generic sentinel.  `takeUntilDot` returns the characters
before the first `'.'` of a list, `none` when there is no dot — on a
reversed path it yields the (reversed) text after the last dot. -/
def takeUntilDot : List Char → Option (List Char)
  | [] => none
  | c :: rest => if c = '.' then some [] else (takeUntilDot rest).map (c :: ·)

/-- The platform token between the last two dots of the file name, when it
is in the configured platform set (see the modelling note above). -/
def getPlatformExtension (platforms : List String) (file : String) :
    Option String :=
  match takeUntilDot file.data.reverse with
  | none => none
  | some revExt =>
    match takeUntilDot (file.data.reverse.drop (revExt.length + 1)) with
    | none => none
    | some revPlat =>
      let plat := String.mk revPlat.reverse
      if platforms.contains plat then some plat else none

/-! ## The module installer `setModule` (`_buildHasteMap`, lines 269–294) -/

/-- The collision diagnostic built by `setModule`, verbatim from the source
template. -/
def collisionMessage (throwOn : Bool) (id newPath existingPath : String) :
    String :=
  "jest-haste-map: @providesModule naming collision:\n" ++
  "  Duplicate module name: " ++ id ++ "\n" ++
  "  Paths: " ++ newPath ++ " collides with " ++ existingPath ++
  "\n\nThis " ++ (if throwOn then "error" else "warning") ++
  " is caused by a @providesModule declaration " ++
  "with the same name across two different files."

/-- `setModule(id, module)`: install `module` into the fresh `map` being
assembled.  `getPlat` stands for `getPlatformExtension`; a thrown collision
error is `Except.error`, and `console.warn` output is accumulated in the
returned warning list. -/
def setModule (throwOn : Bool) (getPlat : String → Option String)
    (map : AList ModuleMapItem) (warnings : List String)
    (id : String) (module : ModuleMetaData) :
    Except String (AList ModuleMapItem × List String) :=
  let moduleMap : ModuleMapItem := (alookup map id).getD []
  let platform : String := (getPlat module.path).getD GENERIC_PLATFORM
  match alookup moduleMap platform with
  | some existingModule =>
    if existingModule.path ≠ module.path then
      let message := collisionMessage throwOn id module.path existingModule.path
      if throwOn then Except.error message
      else Except.ok (map, warnings ++ [message])
    else Except.ok (aset map id (aset moduleMap platform module), warnings)
  | none => Except.ok (aset map id (aset moduleMap platform module), warnings)

/-! ## POSIX path helpers (`fastpath`, not under `src/`) -/

/-- The characters after the last `'/'`: the basename of a POSIX path
without a trailing separator. -/
def basenameChars (cs : List Char) : List Char :=
  cs.foldl (fun acc c => if c = '/' then [] else acc ++ [c]) []

/-- The final `.ext` of a basename; a lone leading dot does not start an
extension. -/
def extnameChars (base : List Char) : List Char :=
  match takeUntilDot base.reverse with
  | none => []
  | some revTail =>
    if base.length = revTail.length + 1 then []
    else '.' :: revTail.reverse

/-- Modelled from the spec: POSIX `path.basename(p)` (from `fastpath`, not
under `src/`): the final path segment. -/
def posixBasename (p : String) : String :=
  String.mk (basenameChars p.data)

/-- Modelled from the spec: POSIX `path.extname(p)`. -/
def posixExtname (p : String) : String :=
  String.mk (extnameChars (basenameChars p.data))

/-- `path.basename(filePath, path.extname(filePath))`: the mocks-registry
stem (basename minus its final extension). -/
def mocksStem (p : String) : String :=
  let base := basenameChars p.data
  let ext := extnameChars base
  String.mk (base.take (base.length - ext.length))

/-! ## The ignore predicate and the `node_modules` whitelist

`getWhiteList` compiles the configured package names into the global regex
`(/node_modules/(?:name1|…|nameK)(?=$|/))` with flag `g`.  The embedding
keeps the name list and models `filePath.match(whitelist).length` directly:
the number of non-overlapping, left-to-right matches of that pattern, where
alternatives are tried in list order and a match consumes
`/node_modules/<name>` (the lookahead consumes nothing).  Names are taken
as literal strings (the source interpolates them into the regex unescaped).
-/

/-- Does `sub` occur as a contiguous run inside `cs`? -/
def listContains (sub : List Char) : List Char → Bool
  | [] => sub.isEmpty
  | c :: rest => sub.isPrefixOf (c :: rest) || listContains sub rest

/-- `strContains s sub`: JS `s.includes(sub)`. -/
def strContains (s sub : String) : Bool :=
  listContains sub.data s.data

/-- Does one of `names` (tried in order) match at the start of `rest`, with
the `(?=$|/)` lookahead satisfied?  Returns the matched name's length. -/
def whitelistAlt (names : List String) (rest : List Char) : Option Nat :=
  match names with
  | [] => none
  | n :: more =>
    if n.data.isPrefixOf rest ∧
        ((rest.drop n.length = []) ∨ (rest.drop n.length).head? = some '/') then
      some n.length
    else whitelistAlt more rest

/-- Does the whitelist pattern match at the start of `cs`?  Returns the
number of characters the match consumes. -/
def whitelistMatchAt (names : List String) (cs : List Char) : Option Nat :=
  if NODE_MODULES.data.isPrefixOf cs then
    match whitelistAlt names (cs.drop NODE_MODULES.length) with
    | some k => some (NODE_MODULES.length + k)
    | none => none
  else none

/-- Fuelled scan counting the global-regex matches along `cs`. -/
def countWhitelistAux (names : List String) : Nat → List Char → Nat
  | 0, _ => 0
  | _, [] => 0
  | fuel + 1, c :: rest =>
    match whitelistMatchAt names (c :: rest) with
    | some k => 1 + countWhitelistAux names fuel ((c :: rest).drop k)
    | none => countWhitelistAux names fuel rest

/-- `filePath.match(whitelist).length` (0 when `match` is `null`). -/
def countWhitelistMatches (names : List String) (p : String) : Nat :=
  countWhitelistAux names p.data.length p.data

/-- `getWhiteList`: `some names` stands for the compiled regex, `none` for
the `null` whitelist (empty or absent package-name list). -/
def getWhiteList (list : Option (List String)) : Option (List String) :=
  match list with
  | some names => if names.length ≠ 0 then some names else none
  | none => none

/-- `_isNodeModulesDir`: under a `node_modules` segment and, when a
whitelist exists, not matched by it exactly once (`!match ||
match.length > 1`). -/
def isNodeModulesDir (whitelist : Option (List String)) (filePath : String) :
    Bool :=
  if !strContains filePath NODE_MODULES then false
  else
    match whitelist with
    | some names =>
      let count := countWhitelistMatches names filePath
      count == 0 || count > 1
    | none => true

/-- `_ignore`: the configured ignore regex is an oracle predicate
`ignorePattern`. -/
def ignorePath (ignorePattern : String → Bool) (retainAllFiles : Bool)
    (whitelist : Option (List String)) (filePath : String) : Bool :=
  ignorePattern filePath ||
    (!retainAllFiles && isNodeModulesDir whitelist filePath)

/-! ## Worker orchestration state (`_getWorker`, teardown block)

`_workerFarm` and `_workerPromise` are the instance fields; `farmAlive`
tracks whether a spawned `worker-farm` pool is still running (that is,
`workerFarm.end` has not been called on it). -/

structure WorkerPoolState where
  workerFarm : Bool
  workerPromise : Bool
  farmAlive : Bool
deriving DecidableEq, Repr

/-- The state of an instance that never created a worker. -/
def poolIdle : WorkerPoolState :=
  { workerFarm := false, workerPromise := false, farmAlive := false }

/-- `_getWorker` on first use: in-process worker when `maxWorkers ≤ 1`,
otherwise a lazily created process pool. -/
def createWorker (maxWorkers : Nat) : WorkerPoolState :=
  if maxWorkers ≤ 1 then
    { workerFarm := false, workerPromise := true, farmAlive := false }
  else
    { workerFarm := true, workerPromise := true, farmAlive := true }

/-- The teardown block of `_buildHasteMap`:
`if (this._workerFarm) workerFarm.end(this._workerFarm);` then null out
both fields. -/
def endWorkerFarm (st : WorkerPoolState) : WorkerPoolState :=
  { workerFarm := false, workerPromise := false,
    farmAlive := st.farmAlive && !st.workerFarm }

/-! ## The metadata builder `_buildHasteMap` (lines 264–353) -/

/-- The worker's reply (`WorkerMetadata`): `dependencies` may be absent
(`metadata.dependencies || []` in the handler). -/
structure WorkerMetadata where
  id : Option String
  module : Option ModuleMetaData
  dependencies : Option (List String)
deriving DecidableEq, Repr

/-- Result of the synchronous loop body (phase A) over all files: the mocks
table, the `map` after the visited-file copy-throughs, and the paths
submitted to workers, in file order. -/
structure PhaseAResult where
  mocks : AList String
  copied : AList ModuleMapItem
  dispatch : List String
deriving DecidableEq, Repr

/-- One iteration of the synchronous `for (const filePath in hasteMap.files)`
loop. -/
def phaseAStep (retainAllFiles : Bool) (mocksPattern : Option (String → Bool))
    (whitelist : Option (List String)) (hasteMap : InternalHasteMap)
    (acc : PhaseAResult) (entry : String × FileMetaData) : PhaseAResult :=
  let filePath := entry.1
  let fileMetadata := entry.2
  if retainAllFiles && isNodeModulesDir whitelist filePath then acc
  else
    let mocks :=
      match mocksPattern with
      | some pat =>
        if pat filePath then aset acc.mocks (mocksStem filePath) filePath
        else acc.mocks
      | none => acc.mocks
    let moduleMetadata :=
      match fileMetadata.id with
      | some i => alookup hasteMap.map i
      | none => none
    if fileMetadata.visited then
      if !idTruthy fileMetadata.id then { acc with mocks := mocks }
      else
        match moduleMetadata with
        | some mm =>
          { acc with
            mocks := mocks
            copied := aset acc.copied (fileMetadata.id.getD "") mm }
        | none =>
          { acc with mocks := mocks, dispatch := acc.dispatch ++ [filePath] }
    else { acc with mocks := mocks, dispatch := acc.dispatch ++ [filePath] }

/-- Phase A over the whole `files` table. -/
def phaseA (retainAllFiles : Bool) (mocksPattern : Option (String → Bool))
    (whitelist : Option (List String)) (hasteMap : InternalHasteMap) :
    PhaseAResult :=
  hasteMap.files.foldl (phaseAStep retainAllFiles mocksPattern whitelist hasteMap)
    { mocks := [], copied := [], dispatch := [] }

/-- The mutable coordinator state while the worker-promise handlers run. -/
structure PhaseBState where
  files : AList FileMetaData
  map : AList ModuleMapItem
  warnings : List String
  firstError : Option String
deriving DecidableEq, Repr

/-- One worker-promise handler (the `.then(metadata => …, error => …)` pair
for one submitted path).  A worker error deletes the path from `files` and
is otherwise silent; a success marks the file visited, records `id` and
`dependencies`, and runs `setModule` when the reply carries both a truthy
`id` and a `module` — a collision thrown there rejects this handler's
promise after `visited` and `id` were already stored but before
`dependencies` was. -/
def phaseBStep (throwOn : Bool) (getPlat : String → Option String)
    (worker : String → Except String WorkerMetadata)
    (st : PhaseBState) (filePath : String) : PhaseBState :=
  match worker filePath with
  | Except.error _ => { st with files := aerase st.files filePath }
  | Except.ok metadata =>
    match alookup st.files filePath with
    | none => st
    | some fm =>
      let fm := { fm with visited := true }
      match metadata.id, metadata.module with
      | some mid, some mmod =>
        if mid == "" then
          let fm := { fm with dependencies := metadata.dependencies.getD [] }
          { st with files := aset st.files filePath fm }
        else
          let fm := { fm with id := some mid }
          match setModule throwOn getPlat st.map st.warnings mid mmod with
          | Except.error msg =>
            { st with
              files := aset st.files filePath fm
              firstError := st.firstError.orElse (fun _ => some msg) }
          | Except.ok (map2, warns2) =>
            let fm := { fm with dependencies := metadata.dependencies.getD [] }
            { st with
              files := aset st.files filePath fm
              map := map2
              warnings := warns2 }
      | _, _ =>
        let fm := { fm with dependencies := metadata.dependencies.getD [] }
        { st with files := aset st.files filePath fm }

/-- The outcome of stage 3 on one instance: the settled value of the stage
promise, the worker-pool fields afterwards, and the `console.warn` output. -/
structure BuildStageResult where
  result : Except String InternalHasteMap
  pool : WorkerPoolState
  warnings : List String
deriving Repr

/-- The worker-promise handlers of one stage, run in file order over the
submitted paths, starting from the post-crawl `files` and the copied-through
`map`. -/
def phaseB (throwOn : Bool) (getPlat : String → Option String)
    (worker : String → Except String WorkerMetadata)
    (a : PhaseAResult) (files : AList FileMetaData) : PhaseBState :=
  a.dispatch.foldl (phaseBStep throwOn getPlat worker)
    { files := files, map := a.copied, warnings := [], firstError := none }

/-- The `_getWorker` field state after the loop: untouched when nothing was
dispatched, else created on first use. -/
def dispatchPool (a : PhaseAResult) (maxWorkers : Nat) : WorkerPoolState :=
  if a.dispatch.isEmpty then poolIdle else createWorker maxWorkers

/-- `_buildHasteMap`: phase A, then the handlers in file order, then —
only when `Promise.all` resolved, i.e. no handler rejected — the teardown
block and the publication of the fresh `map` and `mocks` into the haste
map. -/
def buildHasteMap (retainAllFiles throwOn : Bool)
    (mocksPattern : Option (String → Bool))
    (whitelist : Option (List String)) (maxWorkers : Nat)
    (getPlat : String → Option String)
    (worker : String → Except String WorkerMetadata)
    (hasteMap : InternalHasteMap) : BuildStageResult :=
  let a := phaseA retainAllFiles mocksPattern whitelist hasteMap
  let pool := dispatchPool a maxWorkers
  let b := phaseB throwOn getPlat worker a hasteMap.files
  match b.firstError with
  | some msg => { result := Except.error msg, pool := pool,
                  warnings := b.warnings }
  | none =>
    { result := Except.ok
        { hasteMap with files := b.files, map := b.map, mocks := a.mocks }
      pool := endWorkerFarm pool
      warnings := b.warnings }

/-! ## Stage 1: the cache loader (`_buildFileMap`, `_createEmptyMap`) -/

/-- The outcome of `this.read()` — `_parse(fs.readFileSync(cachePath))` —
as an oracle: `Except.error` covers every read failure (missing file,
corrupt content; a version change moves the cache path, so the file is
missing there too). -/
abbrev ReadOutcome := Except Unit InternalHasteMap

/-- The read half of `_buildFileMap` (before `_crawl`): choose
`_createEmptyMap` outright under `resetCache`, otherwise attempt the read
and fall back to `_createEmptyMap` on any failure.  The boolean reports
whether a read was attempted. -/
def buildFileMapRead (resetCache : Bool) (readCacheFile : ReadOutcome) :
    InternalHasteMap × Bool :=
  if resetCache then (createEmptyMap, false)
  else
    match readCacheFile with
    | Except.ok m => (m, true)
    | Except.error _ => (createEmptyMap, true)

/-! ## Stage 2: crawler dispatch and the retry policy (`_crawl`) -/

/-- Which crawler was invoked, for the call trace. -/
inductive CrawlerKind where
  | watchman
  | node
deriving DecidableEq, Repr

/-- A crawler as the specification's contract sees it: roots, extensions,
the ignore predicate, the loaded map, and a future that may reject. -/
abbrev Crawler :=
  List String → List String → (String → Bool) → InternalHasteMap →
    Except String InternalHasteMap

/-- The watchman-failure diagnostic emitted before the retry, verbatim from
the source template. -/
def watchmanRetryWarning (error : String) : String :=
  "jest-haste-map: Watchman crawl failed. Retrying once with node " ++
  "crawler.\n" ++
  "  Usually this happens when watchman isn't running. Create an " ++
  "empty `.watchmanconfig` file in your project's root folder or " ++
  "initialize a git or hg repository in your project.\n" ++
  "  " ++ error

/-- The combined error raised when the native retry also fails. -/
def crawlRetryError (original retryErr : String) : String :=
  "Crawler retry failed:\n" ++
  "  Original error: " ++ original ++ "\n" ++
  "  Retry error: " ++ retryErr ++ "\n"

/-- `_crawl`: select the watchman crawler iff the availability probe and
`useWatchman` both hold; a failure of the watchman crawler (rejection or
synchronous throw — both reach `retry`) warns and invokes the node crawler
exactly once with the same arguments; a node-crawler failure is final.
Returns the settled result, the crawler invocations in order, and the
`console.warn` output. -/
def crawlRun (canUseWatchman useWatchman : Bool)
    (watchmanCrawl nodeCrawl : Crawler)
    (roots extensions : List String) (ignore : String → Bool)
    (hasteMap : InternalHasteMap) :
    Except String InternalHasteMap × List CrawlerKind × List String :=
  if canUseWatchman && useWatchman then
    match watchmanCrawl roots extensions ignore hasteMap with
    | Except.ok m => (Except.ok m, [CrawlerKind.watchman], [])
    | Except.error e =>
      match nodeCrawl roots extensions ignore hasteMap with
      | Except.ok m =>
        (Except.ok m, [CrawlerKind.watchman, CrawlerKind.node],
          [watchmanRetryWarning e])
      | Except.error e2 =>
        (Except.error (crawlRetryError e e2),
          [CrawlerKind.watchman, CrawlerKind.node],
          [watchmanRetryWarning e])
  else
    match nodeCrawl roots extensions ignore hasteMap with
    | Except.ok m => (Except.ok m, [CrawlerKind.node], [])
    | Except.error e => (Except.error e, [CrawlerKind.node], [])

/-! ## `build()`: the single-flight shared handle (lines 221–235) -/

/-- The instance fields `build()` touches: the shared (settled) result
handle and, for observation, how many times the pipeline was started. -/
structure BuildInstance where
  buildPromise : Option (Except String InternalHasteMap)
  pipelinesStarted : Nat
deriving Repr

/-- A freshly constructed instance (`this._buildPromise = null`). -/
def newInstance : BuildInstance :=
  { buildPromise := none, pipelinesStarted := 0 }

/-- `build()`: start the pipeline and store its settled result in
`_buildPromise` only when the field is unset; always return the stored
handle.  `runPipeline` is the settled value the pipeline composition would
produce on this instance (rejections included); no code path ever clears
`_buildPromise`. -/
def buildCall (runPipeline : Except String InternalHasteMap)
    (s : BuildInstance) : Except String InternalHasteMap × BuildInstance :=
  match s.buildPromise with
  | some r => (r, s)
  | none =>
    (runPipeline,
      { buildPromise := some runPipeline
        pipelinesStarted := s.pipelinesStarted + 1 })

/-- `n` successive `build()` calls on an instance, collecting the returned
handles newest-first. -/
def buildCalls (runPipeline : Except String InternalHasteMap) :
    Nat → BuildInstance → List (Except String InternalHasteMap) × BuildInstance
  | 0, s => ([], s)
  | n + 1, s =>
    let (r, s1) := buildCall runPipeline s
    let (rs, s2) := buildCalls runPipeline n s1
    (r :: rs, s2)

/-! ## The pipeline composition (`build()`'s `.then` chain)

`read/crawl/buildHasteMap/persist` composed; `_persist` returns the same
map it was given (the cache write itself has no effect on the published
value). -/

def buildPipeline (resetCache retainAllFiles throwOn : Bool)
    (canUseWatchman useWatchman : Bool) (maxWorkers : Nat)
    (roots extensions : List String) (ignore : String → Bool)
    (mocksPattern : Option (String → Bool))
    (whitelist : Option (List String))
    (getPlat : String → Option String)
    (readCacheFile : ReadOutcome)
    (watchmanCrawl nodeCrawl : Crawler)
    (worker : String → Except String WorkerMetadata) :
    Except String InternalHasteMap :=
  let loaded := (buildFileMapRead resetCache readCacheFile).1
  match (crawlRun canUseWatchman useWatchman watchmanCrawl nodeCrawl
      roots extensions ignore loaded).1 with
  | Except.error e => Except.error e
  | Except.ok crawled =>
    (buildHasteMap retainAllFiles throwOn mocksPattern whitelist maxWorkers
      getPlat worker crawled).result

/-! ## MD5 and `getCacheFilePath`

`crypto.createHash('md5')` fed a sequence of `update` calls digests the
concatenation of the updates.  MD5 (RFC 1321) is implemented here over
`Nat` with explicit reduction modulo `2^32`; strings are digested via their
UTF-8 bytes. -/

/-- 32-bit rotation left by `s` (for `x < 2^32`, `0 < s < 32`). -/
def wrotl (x s : Nat) : Nat :=
  (x * 2 ^ s) % 4294967296 + x % 4294967296 / 2 ^ (32 - s)

/-- 32-bit addition. -/
def wadd (a b : Nat) : Nat := (a + b) % 4294967296

/-- 32-bit complement (for `a < 2^32`). -/
def wnot (a : Nat) : Nat := Nat.xor a 4294967295

/-- The 64 sine-derived round constants `⌊2^32·|sin(i+1)|⌋`. -/
def md5K : List Nat := [
  3614090360, 3905402710, 606105819, 3250441966,
  4118548399, 1200080426, 2821735955, 4249261313,
  1770035416, 2336552879, 4294925233, 2304563134,
  1804603682, 4254626195, 2792965006, 1236535329,
  4129170786, 3225465664, 643717713, 3921069994,
  3593408605, 38016083, 3634488961, 3889429448,
  568446438, 3275163606, 4107603335, 1163531501,
  2850285829, 4243563512, 1735328473, 2368359562,
  4294588738, 2272392833, 1839030562, 4259657740,
  2763975236, 1272893353, 4139469664, 3200236656,
  681279174, 3936430074, 3572445317, 76029189,
  3654602809, 3873151461, 530742520, 3299628645,
  4096336452, 1126891415, 2878612391, 4237533241,
  1700485571, 2399980690, 4293915773, 2240044497,
  1873313359, 4264355552, 2734768916, 1309151649,
  4149444226, 3174756917, 718787259, 3951481745]

/-- The per-round left-rotation amounts. -/
def md5S : List Nat := [
  7, 12, 17, 22, 7, 12, 17, 22, 7, 12, 17, 22, 7, 12, 17, 22,
  5, 9, 14, 20, 5, 9, 14, 20, 5, 9, 14, 20, 5, 9, 14, 20,
  4, 11, 16, 23, 4, 11, 16, 23, 4, 11, 16, 23, 4, 11, 16, 23,
  6, 10, 15, 21, 6, 10, 15, 21, 6, 10, 15, 21, 6, 10, 15, 21]

/-- One MD5 round `i` over message words `m` and state `(a, b, c, d)`. -/
def md5Round (m : List Nat) (st : Nat × Nat × Nat × Nat) (i : Nat) :
    Nat × Nat × Nat × Nat :=
  let a := st.1
  let b := st.2.1
  let c := st.2.2.1
  let d := st.2.2.2
  let f :=
    if i < 16 then Nat.lor (Nat.land b c) (Nat.land (wnot b) d)
    else if i < 32 then Nat.lor (Nat.land d b) (Nat.land (wnot d) c)
    else if i < 48 then Nat.xor b (Nat.xor c d)
    else Nat.xor c (Nat.lor b (wnot d))
  let g :=
    if i < 16 then i
    else if i < 32 then (5 * i + 1) % 16
    else if i < 48 then (3 * i + 5) % 16
    else (7 * i) % 16
  let rotated := wrotl (wadd (wadd a f) (wadd (md5K.getD i 0) (m.getD g 0)))
    (md5S.getD i 0)
  (d, wadd b rotated, b, c)

/-- Decode a 64-byte block into 16 little-endian 32-bit words. -/
def wordsOfBlock : List Nat → List Nat
  | b0 :: b1 :: b2 :: b3 :: rest =>
    (b0 + 256 * b1 + 65536 * b2 + 16777216 * b3) :: wordsOfBlock rest
  | _ => []

/-- Process one block: 64 rounds, then add the incoming state back in. -/
def md5Block (m : List Nat) (st : Nat × Nat × Nat × Nat) :
    Nat × Nat × Nat × Nat :=
  let f := (List.range 64).foldl (md5Round m) st
  (wadd st.1 f.1, wadd st.2.1 f.2.1, wadd st.2.2.1 f.2.2.1,
    wadd st.2.2.2 f.2.2.2)

/-- Fuelled fold over the 64-byte blocks of a padded message. -/
def md5Blocks : Nat → List Nat → Nat × Nat × Nat × Nat →
    Nat × Nat × Nat × Nat
  | 0, _, st => st
  | _, [], st => st
  | fuel + 1, bs, st =>
    md5Blocks fuel (bs.drop 64) (md5Block (wordsOfBlock (bs.take 64)) st)

/-- `k` bytes of `n`, little-endian. -/
def leBytes : Nat → Nat → List Nat
  | 0, _ => []
  | k + 1, n => n % 256 :: leBytes k (n / 256)

/-- MD5 padding: a `0x80` byte, zeros to 56 mod 64, then the bit length as
eight little-endian bytes. -/
def md5Pad (msg : List Nat) : List Nat :=
  let len := msg.length
  let zeros := (64 + 56 - (len + 1) % 64) % 64
  msg ++ [128] ++ List.replicate zeros 0 ++ leBytes 8 (len * 8)

/-- UTF-8 encoding of one character. -/
def charUTF8 (c : Char) : List Nat :=
  let n := c.toNat
  if n < 128 then [n]
  else if n < 2048 then [192 + n / 64, 128 + n % 64]
  else if n < 65536 then
    [224 + n / 4096, 128 + (n / 64) % 64, 128 + n % 64]
  else
    [240 + n / 262144, 128 + (n / 4096) % 64, 128 + (n / 64) % 64,
      128 + n % 64]

/-- The UTF-8 bytes of a string. -/
def strBytes (s : String) : List Nat := (s.data.map charUTF8).flatten

/-- A nibble as a lowercase hex character. -/
def hexDigit (n : Nat) : Char :=
  if n < 10 then Char.ofNat (48 + n) else Char.ofNat (87 + n)

/-- A byte as two hex characters. -/
def byteHex (b : Nat) : List Char := [hexDigit (b / 16), hexDigit (b % 16)]

/-- The 16 digest bytes of the MD5 of a byte sequence. -/
def md5Bytes (msg : List Nat) : List Nat :=
  let bs := md5Pad msg
  let st := md5Blocks bs.length bs (1732584193, 4023233417, 2562383102,
    271733878)
  leBytes 4 st.1 ++ leBytes 4 st.2.1 ++ leBytes 4 st.2.2.1 ++
    leBytes 4 st.2.2.2

/-- `hash.digest('hex')` of the MD5 of a string's UTF-8 bytes. -/
def md5Hex (s : String) : String :=
  String.mk ((md5Bytes (strBytes s)).map byteHex).flatten

/-! ## `getCacheFilePath` (lines 212–219) and its use by the constructor -/

/-- `name.replace(/\W/g, '-')`: non-word characters become `-`. -/
def sanitizeName (name : String) : String :=
  String.mk (name.data.map fun c =>
    if c.isAlphanum || c = '_' then c else '-')

/-- `getCacheFilePath(tmpdir, name, …tokens)`: join the cache directory
with the sanitized name, a `-`, and the MD5 hex digest of every argument
after `tmpdir` concatenated (each is one `hash.update`).  `path.join` is
POSIX, with `tmpdir` not ending in a separator. -/
def getCacheFilePath (tmpdir name version rootsJoined extensionsJoined
    platformsJoined mocksPattern : String) : String :=
  tmpdir ++ "/" ++ sanitizeName name ++ "-" ++
    md5Hex (name ++ version ++ rootsJoined ++ extensionsJoined ++
      platformsJoined ++ mocksPattern)

/-- `Array.prototype.join(sep)`: tokens joined with a separator. -/
def joinTokens (sep : String) : List String → String
  | [] => ""
  | [x] => x
  | x :: rest => x ++ sep ++ joinTokens sep rest

/-- The constructor inputs that determine the cache path.  `mocksPattern`
is the raw pattern source string (the constructor hands the option through
before compiling it to a regex). -/
structure CacheConfig where
  cacheDirectory : String
  name : String
  version : String
  roots : List String
  extensions : List String
  platforms : List String
  mocksPattern : String
deriving DecidableEq, Repr

/-- The concatenation the constructor's `getCacheFilePath` call feeds to the
hash: name, version, then roots, extensions and platforms each joined with
`:`, then the mocks pattern. -/
def cacheHashInput (cfg : CacheConfig) : String :=
  cfg.name ++ cfg.version ++ joinTokens ":" cfg.roots ++
    joinTokens ":" cfg.extensions ++
    joinTokens ":" cfg.platforms ++ cfg.mocksPattern

/-- The constructor's call: lists are joined with `:` before hashing. -/
def cacheFilePathOfConfig (cfg : CacheConfig) : String :=
  getCacheFilePath cfg.cacheDirectory cfg.name cfg.version
    (joinTokens ":" cfg.roots) (joinTokens ":" cfg.extensions)
    (joinTokens ":" cfg.platforms) cfg.mocksPattern

/-! ## The specification's reading of the ignore predicate (for comparison)

Claim C7 reads §4.2 of the spec declaratively; the following definitions
follow the spec's words, to be compared with the source's `_ignore` above.
-/

/-- Some position of `cs` carries a whitelisted occurrence: the literal
`/node_modules/<name>` for a listed `<name>`, followed by `/` or the end of
the path. -/
def whitelistedSomewhere (names : List String) : List Char → Bool
  | [] => false
  | c :: rest =>
    (whitelistMatchAt names (c :: rest)).isSome ||
      whitelistedSomewhere names rest

/-- The ignore predicate as the spec's words (and claim C7) state it: "a
path is ignored if it matches the configured ignore pattern, or if it lies
under a `node_modules` segment AND is not whitelisted … a path under
`node_modules/<name>/…` is whitelisted iff `<name>` is in the list", with
`retainAllFiles` overriding the `node_modules` exclusion — irrespective of
how many whitelisted occurrences the path carries. -/
def specIgnore (ignorePattern : String → Bool) (retainAllFiles : Bool)
    (whitelist : Option (List String)) (p : String) : Bool :=
  ignorePattern p ||
    (!retainAllFiles && strContains p NODE_MODULES &&
      !(match whitelist with
        | some names => whitelistedSomewhere names p.data
        | none => false))

/-! # Theorems -/

/-! ## Shared helper lemmas -/

theorem isPrefixOf_append_self (sub rest : List Char) :
    sub.isPrefixOf (sub ++ rest) = true := by
  induction sub with
  | nil => simp [List.isPrefixOf]
  | cons c cs ih => simp [List.isPrefixOf, ih]

theorem listContains_self_append (sub rest : List Char) :
    listContains sub (sub ++ rest) = true := by
  cases sub with
  | nil => cases rest with
    | nil => rfl
    | cons c tl => simp [listContains]
  | cons c cs => simp [listContains, isPrefixOf_append_self]

theorem listContains_cons_of (sub : List Char) (c : Char) (l : List Char)
    (h : listContains sub l = true) : listContains sub (c :: l) = true := by
  simp [listContains, h]

theorem listContains_middle (pre sub post : List Char) :
    listContains sub (pre ++ (sub ++ post)) = true := by
  induction pre with
  | nil => simpa using listContains_self_append sub post
  | cons c cs ih => simpa [List.cons_append] using listContains_cons_of _ c _ ih

theorem strContains_append_middle (pre sub post : String) :
    strContains (pre ++ sub ++ post) sub = true := by
  have h : (pre ++ sub ++ post).data = pre.data ++ (sub.data ++ post.data) := by
    simp [String.data_append]
  simp only [strContains, h]
  exact listContains_middle pre.data sub.data post.data

theorem buildCall_of_some {s : BuildInstance}
    {r : Except String InternalHasteMap}
    (p : Except String InternalHasteMap) (h : s.buildPromise = some r) :
    buildCall p s = (r, s) := by
  unfold buildCall
  rw [h]

theorem buildCalls_of_some {s : BuildInstance}
    {r : Except String InternalHasteMap}
    (p : Except String InternalHasteMap) (h : s.buildPromise = some r)
    (n : Nat) : buildCalls p n s = (List.replicate n r, s) := by
  induction n with
  | zero => rfl
  | succ n ih => simp [buildCalls, buildCall_of_some p h, ih, List.replicate]

/-! ## C3 -/

/-- C3: stage 1 produces the deserialization of the cache file; on any read
failure (missing file, corrupt content, version mismatch — the version being
part of the cache path, a mismatch reads a missing file) it instead produces
the empty `HasteMap`, whose four sub-tables are all present and empty with
no hidden or inherited keys; under `resetCache` the empty map is produced
without attempting the read at all. -/
theorem c3_stage1_read_fallback :
    (∀ r : ReadOutcome, buildFileMapRead true r = (createEmptyMap, false)) ∧
    (∀ m : InternalHasteMap,
      buildFileMapRead false (Except.ok m) = (m, true)) ∧
    (∀ e : Unit,
      buildFileMapRead false (Except.error e) = (createEmptyMap, true)) ∧
    createEmptyMap.clocks = [] ∧ createEmptyMap.files = [] ∧
    createEmptyMap.map = [] ∧ createEmptyMap.mocks = [] :=
  ⟨fun _ => rfl, fun _ => rfl, fun _ => rfl, rfl, rfl, rfl, rfl⟩

/-! ## C8 -/

/-- C8: `build()` is single-flight — after the first call stored its result,
every later call (any number of them) returns the very same stored result
and leaves the instance untouched, and the pipeline has been started exactly
once on the instance. -/
theorem c8_build_single_flight (p : Except String InternalHasteMap)
    (n : Nat) :
    buildCalls p n (buildCall p newInstance).2 =
      (List.replicate n (buildCall p newInstance).1,
        (buildCall p newInstance).2) ∧
    (buildCall p newInstance).2.pipelinesStarted = 1 := by
  have h1 : (buildCall p newInstance).2.buildPromise = some p := rfl
  have h2 : (buildCall p newInstance).1 = p := rfl
  exact ⟨by rw [h2]; exact buildCalls_of_some p h1 n, rfl⟩

/-! ## C10 -/

/-- C10: the shared build handle is set by the first `build()` call and no
operation ever clears it — any instance whose handle holds a settled result
`r` (a rejection included) returns exactly `r` from `build()` with the
instance unchanged, so a failed build is never retried: with a rejecting
pipeline, every call returns the same rejection and the pipeline ran once. -/
theorem c10_failed_build_latched (e : String) :
    (∀ p : Except String InternalHasteMap,
      (buildCall p newInstance).2.buildPromise = some p) ∧
    (∀ (s : BuildInstance) (p r : Except String InternalHasteMap),
      s.buildPromise = some r → buildCall p s = (r, s)) ∧
    (∀ n : Nat,
      buildCalls (Except.error e) n
          (buildCall (Except.error e) newInstance).2 =
        (List.replicate n (Except.error e),
          (buildCall (Except.error e) newInstance).2)) ∧
    (buildCall (Except.error e) newInstance).2.pipelinesStarted = 1 := by
  refine ⟨fun _ => rfl, fun s p r h => buildCall_of_some p h, fun n => ?_, rfl⟩
  exact buildCalls_of_some (Except.error e) rfl n

/-- Witness for C10 at a concrete latched rejection. -/
theorem c10_failed_build_latched_witness :
    (({ buildPromise := some (Except.error "boom"), pipelinesStarted := 1 } :
        BuildInstance).buildPromise = some (Except.error "boom")) ∧
    buildCall (Except.ok createEmptyMap)
        { buildPromise := some (Except.error "boom"), pipelinesStarted := 1 } =
      (Except.error "boom",
        { buildPromise := some (Except.error "boom"),
          pipelinesStarted := 1 }) :=
  ⟨rfl, (c10_failed_build_latched "boom").2.1 _ _ _ rfl⟩

/-! ## C4 -/

/-- C4: when the watchman crawler is selected and fails, the builder emits
one diagnostic and invokes the native crawler exactly once with the same
roots, extensions, ignore predicate and loaded map; if that retry also
fails the build rejects with one error carrying both underlying messages;
when the native crawler is selected initially, its failure is fatal with no
retry. -/
theorem c4_crawl_retry_policy (watchmanCrawl nodeCrawl : Crawler)
    (roots exts : List String) (ignore : String → Bool)
    (hm : InternalHasteMap) (e : String)
    (hw : watchmanCrawl roots exts ignore hm = Except.error e) :
    crawlRun true true watchmanCrawl nodeCrawl roots exts ignore hm =
      ((match nodeCrawl roots exts ignore hm with
        | Except.ok m => Except.ok m
        | Except.error e2 => Except.error (crawlRetryError e e2)),
        [CrawlerKind.watchman, CrawlerKind.node],
        [watchmanRetryWarning e]) ∧
    (∀ e2 : String, strContains (crawlRetryError e e2) e = true ∧
      strContains (crawlRetryError e e2) e2 = true) ∧
    (∀ canUse useW : Bool, (canUse && useW) = false →
      crawlRun canUse useW watchmanCrawl nodeCrawl roots exts ignore hm =
        (match nodeCrawl roots exts ignore hm with
         | Except.ok m => (Except.ok m, [CrawlerKind.node], [])
         | Except.error e2 => (Except.error e2, [CrawlerKind.node], []))) := by
  refine ⟨?_, fun e2 => ⟨?_, ?_⟩, fun canUse useW h => ?_⟩
  · simp only [crawlRun, Bool.and_self, if_pos rfl, hw]
    cases hn : nodeCrawl roots exts ignore hm <;> simp [hn]
  · have h : crawlRetryError e e2 =
        "Crawler retry failed:\n  Original error: " ++ e ++
          ("\n  Retry error: " ++ e2 ++ "\n") := by
      simp [crawlRetryError, String.append_assoc]
    rw [h]
    exact strContains_append_middle _ e _
  · have h : crawlRetryError e e2 =
        ("Crawler retry failed:\n  Original error: " ++ e ++
          "\n  Retry error: ") ++ e2 ++ "\n" := by
      simp [crawlRetryError, String.append_assoc]
    rw [h]
    exact strContains_append_middle _ e2 _
  · unfold crawlRun
    rw [h]
    cases hn : nodeCrawl roots exts ignore hm <;> simp [hn]

/-- Witness for C4: a concrete watchman failure retried on a concrete
native crawler. -/
theorem c4_crawl_retry_policy_witness :
    ((fun _ _ _ _ => Except.error "watchman down" : Crawler)
        ["/r"] ["js"] (fun _ => false) createEmptyMap =
      Except.error "watchman down") ∧
    crawlRun true true (fun _ _ _ _ => Except.error "watchman down")
        (fun _ _ _ hm => Except.ok hm) ["/r"] ["js"] (fun _ => false)
        createEmptyMap =
      (Except.ok createEmptyMap,
        [CrawlerKind.watchman, CrawlerKind.node],
        [watchmanRetryWarning "watchman down"]) :=
  ⟨rfl,
    (c4_crawl_retry_policy (fun _ _ _ _ => Except.error "watchman down")
      (fun _ _ _ hm => Except.ok hm) ["/r"] ["js"] (fun _ => false)
      createEmptyMap "watchman down" rfl).1⟩

/-! ## C1 -/

/-- C1 counterexample: installing a module whose path equals the
already-installed path is not a no-op — `setModule` falls through to the
assignment `moduleMap[platform] = module`, so a module of the same path but
different kind (`package` vs `module`) replaces the installed entry. -/
theorem c1_counterexample_same_path_overwrite :
    setModule false (fun _ => none)
        [("X", [("g", ⟨"/a.js", "module"⟩)])] [] "X" ⟨"/a.js", "package"⟩ =
      Except.ok ([("X", [("g", ⟨"/a.js", "package"⟩)])], []) ∧
    setModule false (fun _ => none)
        [("X", [("g", ⟨"/a.js", "module"⟩)])] [] "X" ⟨"/a.js", "package"⟩ ≠
      Except.ok ([("X", [("g", ⟨"/a.js", "module"⟩)])], []) := by
  exact ⟨rfl, by decide⟩

/-- C1 (amended): when `setModule` is invoked and the platform cell already
holds a module with a different path, the throw policy rejects the stage
with a diagnostic naming both paths (and the rejection aborts the build),
while the warn policy emits one warning naming both paths and keeps the
first-installed module; when the cell holds a module with the *same* path,
the cell is overwritten with the incoming module (observably a no-op only
when the kinds also agree); and every cell of a published map holds at most
one module, so no two distinct paths occupy one `(id, platform)` cell. -/
theorem c1_setModule_collision_policy (throwOn : Bool)
    (getPlat : String → Option String) (map : AList ModuleMapItem)
    (warnings : List String) (id : String) (module existing : ModuleMetaData)
    (hex : alookup ((alookup map id).getD [])
        ((getPlat module.path).getD GENERIC_PLATFORM) = some existing) :
    (existing.path ≠ module.path → throwOn = true →
      setModule throwOn getPlat map warnings id module =
        Except.error (collisionMessage true id module.path existing.path)) ∧
    (existing.path ≠ module.path → throwOn = false →
      setModule throwOn getPlat map warnings id module =
        Except.ok (map,
          warnings ++ [collisionMessage false id module.path existing.path])) ∧
    (∀ t : Bool,
      strContains (collisionMessage t id module.path existing.path)
          module.path = true ∧
      strContains (collisionMessage t id module.path existing.path)
          existing.path = true) ∧
    (existing.path = module.path →
      setModule throwOn getPlat map warnings id module =
        Except.ok (aset map id
          (aset ((alookup map id).getD [])
            ((getPlat module.path).getD GENERIC_PLATFORM) module),
          warnings)) ∧
    (∀ (retain : Bool) (mocksPat : Option (String → Bool))
        (whitelist : Option (List String)) (maxW : Nat)
        (worker : String → Except String WorkerMetadata)
        (hasteMap : InternalHasteMap) (msg : String),
      (phaseB throwOn getPlat worker
          (phaseA retain mocksPat whitelist hasteMap)
          hasteMap.files).firstError = some msg →
      (buildHasteMap retain throwOn mocksPat whitelist maxW getPlat worker
          hasteMap).result = Except.error msg) ∧
    (∀ (published : InternalHasteMap) (id2 plat : String)
        (m1 m2 : ModuleMetaData),
      alookup ((alookup published.map id2).getD []) plat = some m1 →
      alookup ((alookup published.map id2).getD []) plat = some m2 →
      m1 = m2) := by
  refine ⟨fun hne ht => ?_, fun hne ht => ?_, fun t => ⟨?_, ?_⟩,
    fun heq => ?_, fun retain mocksPat whitelist maxW worker hasteMap msg h =>
      ?_, fun published id2 plat m1 m2 h1 h2 => ?_⟩
  · subst ht
    simp only [setModule, hex]
    simp [hne]
  · subst ht
    simp only [setModule, hex]
    simp [hne]
  · have h : collisionMessage t id module.path existing.path =
        ("jest-haste-map: @providesModule naming collision:\n" ++
          "  Duplicate module name: " ++ id ++ "\n" ++ "  Paths: ") ++
          module.path ++
          (" collides with " ++ existing.path ++ "\n\nThis " ++
            (if t then "error" else "warning") ++
            " is caused by a @providesModule declaration " ++
            "with the same name across two different files.") := by
      simp [collisionMessage, String.append_assoc]
    rw [h]
    exact strContains_append_middle _ _ _
  · have h : collisionMessage t id module.path existing.path =
        ("jest-haste-map: @providesModule naming collision:\n" ++
          "  Duplicate module name: " ++ id ++ "\n" ++ "  Paths: " ++
          module.path ++ " collides with ") ++ existing.path ++
          ("\n\nThis " ++ (if t then "error" else "warning") ++
            " is caused by a @providesModule declaration " ++
            "with the same name across two different files.") := by
      simp [collisionMessage, String.append_assoc]
    rw [h]
    exact strContains_append_middle _ _ _
  · simp only [setModule, hex]
    simp [heq]
  · unfold buildHasteMap
    simp only []
    rw [h]
  · rw [h1] at h2
    exact Option.some.inj h2

/-- Witness for C1 at a concrete collision under the throw policy. -/
theorem c1_setModule_collision_policy_witness :
    (alookup ((alookup [("X", [("g",
          (⟨"/a.js", "module"⟩ : ModuleMetaData))])] "X").getD [])
        (((fun _ => none : String → Option String) "/b.js").getD
          GENERIC_PLATFORM) = some ⟨"/a.js", "module"⟩) ∧
    setModule true (fun _ => none) [("X", [("g", ⟨"/a.js", "module"⟩)])] []
        "X" ⟨"/b.js", "module"⟩ =
      Except.error (collisionMessage true "X" "/b.js" "/a.js") :=
  ⟨rfl,
    (c1_setModule_collision_policy true (fun _ => none)
      [("X", [("g", ⟨"/a.js", "module"⟩)])] [] "X" ⟨"/b.js", "module"⟩
      ⟨"/a.js", "module"⟩ rfl).1 (by decide) rfl⟩

/-! ## The ok case of `_buildHasteMap` (shared helper) -/

theorem buildHasteMap_ok_elim (retain throwOn : Bool)
    (mocksPat : Option (String → Bool)) (whitelist : Option (List String))
    (maxW : Nat) (getPlat : String → Option String)
    (worker : String → Except String WorkerMetadata)
    (hm m : InternalHasteMap)
    (hok : (buildHasteMap retain throwOn mocksPat whitelist maxW getPlat
        worker hm).result = Except.ok m) :
    m = { hm with
          files := (phaseB throwOn getPlat worker
            (phaseA retain mocksPat whitelist hm) hm.files).files
          map := (phaseB throwOn getPlat worker
            (phaseA retain mocksPat whitelist hm) hm.files).map
          mocks := (phaseA retain mocksPat whitelist hm).mocks } ∧
    (buildHasteMap retain throwOn mocksPat whitelist maxW getPlat worker
        hm).pool = poolIdle := by
  have hpool : ∀ a : PhaseAResult,
      endWorkerFarm (dispatchPool a maxW) = poolIdle := by
    intro a
    unfold endWorkerFarm dispatchPool createWorker poolIdle
    by_cases h1 : a.dispatch.isEmpty <;> by_cases h2 : maxW ≤ 1 <;>
      simp [h1, h2]
  simp only [buildHasteMap] at hok ⊢
  cases hfe : (phaseB throwOn getPlat worker
      (phaseA retain mocksPat whitelist hm) hm.files).firstError with
  | some msg =>
    rw [hfe] at hok
    exact Except.noConfusion hok
  | none =>
    rw [hfe] at hok
    exact ⟨(Except.ok.inj hok).symm, hpool _⟩

/-! ## C5 -/

/-- C5 counterexample: a path matching the mocks pattern is registered in
`mocks` by the synchronous loop body, before its worker runs; when the
worker then fails, the path is deleted from `files` but the mocks entry for
it stays in the published map — the claim's "no map or mocks entry is
produced for it" fails on the mocks side. -/
theorem c5_counterexample_mock_entry_remains :
    (buildHasteMap false false (some fun p => strContains p "__mocks__") none
        1 (fun _ => none) (fun _ => Except.error "EACCES")
        ⟨[], [("/p/__mocks__/a.js", ⟨none, 1, false, []⟩)], [], []⟩).result =
      Except.ok ⟨[], [], [], [("a", "/p/__mocks__/a.js")]⟩ ∧
    alookup ([("a", "/p/__mocks__/a.js")] : AList String)
        (mocksStem "/p/__mocks__/a.js") = some "/p/__mocks__/a.js" ∧
    alookup ([] : AList FileMetaData) "/p/__mocks__/a.js" = none := by
  exact ⟨by decide, by decide, by decide⟩

/-- C5 (amended): a worker error for a submitted path deletes exactly that
path from `files` and has no other effect on the stage state — no map
entry or warning from its extraction, no recorded rejection (the failure is
silent), the fold proceeding over the remaining files — while the published
`mocks` table is the one the synchronous loop registered before any worker
ran, so a mocks entry for the failed path remains. -/
theorem c5_worker_error_silent_drop (throwOn : Bool)
    (getPlat : String → Option String)
    (worker : String → Except String WorkerMetadata)
    (st : PhaseBState) (filePath : String) (e : String)
    (hw : worker filePath = Except.error e) :
    phaseBStep throwOn getPlat worker st filePath =
      { st with files := aerase st.files filePath } ∧
    (phaseBStep throwOn getPlat worker st filePath).map = st.map ∧
    (phaseBStep throwOn getPlat worker st filePath).warnings =
      st.warnings ∧
    (phaseBStep throwOn getPlat worker st filePath).firstError =
      st.firstError ∧
    (∀ (retain : Bool) (mocksPat : Option (String → Bool))
        (whitelist : Option (List String)) (maxW : Nat)
        (hm m : InternalHasteMap),
      (buildHasteMap retain throwOn mocksPat whitelist maxW getPlat worker
          hm).result = Except.ok m →
      m.mocks = (phaseA retain mocksPat whitelist hm).mocks) := by
  have h1 : phaseBStep throwOn getPlat worker st filePath =
      { st with files := aerase st.files filePath } := by
    simp [phaseBStep, hw]
  refine ⟨h1, by rw [h1], by rw [h1], by rw [h1],
    fun retain mocksPat whitelist maxW hm m hok => ?_⟩
  rw [(buildHasteMap_ok_elim retain throwOn mocksPat whitelist maxW getPlat
    worker hm m hok).1]

/-- Witness for C5 at a concrete failing worker. -/
theorem c5_worker_error_silent_drop_witness :
    ((fun _ => Except.error "EACCES" :
        String → Except String WorkerMetadata) "/x.js" =
      Except.error "EACCES") ∧
    phaseBStep false (fun _ => none) (fun _ => Except.error "EACCES")
        ⟨[("/x.js", ⟨none, 1, false, []⟩)], [], [], none⟩ "/x.js" =
      ⟨[], [], [], none⟩ :=
  ⟨rfl,
    ((c5_worker_error_silent_drop false (fun _ => none)
      (fun _ => Except.error "EACCES")
      ⟨[("/x.js", ⟨none, 1, false, []⟩)], [], [], none⟩ "/x.js" "EACCES"
      rfl).1).trans (by decide)⟩

/-! ## C9 -/

set_option maxRecDepth 4000

/-- C9 counterexample: when the metadata stage fails — here a collision
thrown under the throw policy — the teardown block is skipped
(`Promise.all` rejected, so the fulfillment handler holding the teardown
never ran), and the worker farm created for `maxWorkers = 2` is left
running. -/
theorem c9_counterexample_no_teardown_on_failure :
    (buildHasteMap false true none none 2 (fun _ => none)
        (fun p => Except.ok ⟨some "X", some ⟨p, "module"⟩, some []⟩)
        ⟨[], [("/a.js", ⟨none, 1, false, []⟩),
          ("/b.js", ⟨none, 1, false, []⟩)], [], []⟩).result =
      Except.error (collisionMessage true "X" "/b.js" "/a.js") ∧
    (buildHasteMap false true none none 2 (fun _ => none)
        (fun p => Except.ok ⟨some "X", some ⟨p, "module"⟩, some []⟩)
        ⟨[], [("/a.js", ⟨none, 1, false, []⟩),
          ("/b.js", ⟨none, 1, false, []⟩)], [], []⟩).pool =
      ⟨true, true, true⟩ := by
  exact ⟨by decide, by decide⟩

/-- C9 (amended): when the metadata stage succeeds the pool fields are
cleared and any created farm is ended — also when no pool was ever created
(`maxWorkers ≤ 1`, or no files needed extraction); teardown is idempotent
and tolerates a never-created pool.  When the stage fails, the teardown
block is skipped (see the counterexample). -/
theorem c9_pool_teardown_on_success (retain throwOn : Bool)
    (mocksPat : Option (String → Bool)) (whitelist : Option (List String))
    (maxW : Nat) (getPlat : String → Option String)
    (worker : String → Except String WorkerMetadata)
    (hm m : InternalHasteMap)
    (hok : (buildHasteMap retain throwOn mocksPat whitelist maxW getPlat
        worker hm).result = Except.ok m) :
    (buildHasteMap retain throwOn mocksPat whitelist maxW getPlat worker
        hm).pool = poolIdle ∧
    (∀ s : WorkerPoolState,
      endWorkerFarm (endWorkerFarm s) = endWorkerFarm s) ∧
    endWorkerFarm poolIdle = poolIdle := by
  refine ⟨(buildHasteMap_ok_elim retain throwOn mocksPat whitelist maxW
    getPlat worker hm m hok).2, fun s => ?_, rfl⟩
  simp [endWorkerFarm]

/-- Witness for C9 at a concrete successful (empty) stage. -/
theorem c9_pool_teardown_on_success_witness :
    (buildHasteMap false false none none 1 (fun _ => none)
        (fun _ => Except.error "E") createEmptyMap).result =
      Except.ok createEmptyMap ∧
    (buildHasteMap false false none none 1 (fun _ => none)
        (fun _ => Except.error "E") createEmptyMap).pool = poolIdle :=
  ⟨by decide,
    (c9_pool_teardown_on_success false false none none 1 (fun _ => none)
      (fun _ => Except.error "E") createEmptyMap createEmptyMap
      (by decide)).1⟩

/-! ## C2 -/

/-- C2, evaluated at the failing input: a cached module `P` with `ios` and
`android` variants, the `android` file deleted on disk before the rebuild
(the crawler removes it from `files`), the `ios` file unchanged (visited,
id `P`).  The visited `ios` record copies the whole prior `map["P"]` item
through — the stale `android` entry included — so the successful build
publishes a map whose `android` cell names a path that is not a key of the
published `files` table, violating invariant I1. -/
theorem c2_stale_copied_entry_violates_i1 :
    buildPipeline false false false false false 1 [] [] (fun _ => false)
        none none (fun _ => none)
        (Except.ok ⟨[],
          [("/p/P.ios.js", ⟨some "P", 10, true, []⟩),
            ("/p/P.android.js", ⟨some "P", 10, true, []⟩)],
          [("P", [("ios", ⟨"/p/P.ios.js", "module"⟩),
            ("android", ⟨"/p/P.android.js", "module"⟩)])], []⟩)
        (fun _ _ _ hm =>
          Except.ok { hm with files := aerase hm.files "/p/P.android.js" })
        (fun _ _ _ hm =>
          Except.ok { hm with files := aerase hm.files "/p/P.android.js" })
        (fun _ => Except.error "unused") =
      Except.ok ⟨[], [("/p/P.ios.js", ⟨some "P", 10, true, []⟩)],
        [("P", [("ios", ⟨"/p/P.ios.js", "module"⟩),
          ("android", ⟨"/p/P.android.js", "module"⟩)])], []⟩ ∧
    alookup ((alookup
        ([("P", [("ios", (⟨"/p/P.ios.js", "module"⟩ : ModuleMetaData)),
          ("android", ⟨"/p/P.android.js", "module"⟩)])] :
          AList ModuleMapItem) "P").getD []) "android" =
      some ⟨"/p/P.android.js", "module"⟩ ∧
    alookup ([("/p/P.ios.js", (⟨some "P", 10, true, []⟩ : FileMetaData))] :
        AList FileMetaData) "/p/P.android.js" = none := by
  exact ⟨by decide, by decide, by decide⟩

/-! ## C7 -/

/-- The scan counts at least one match exactly when some suffix of the path
starts with a whitelisted `/node_modules/<name>` occurrence. -/
theorem countWhitelistAux_pos_iff (names : List String) :
    ∀ (fuel : Nat) (cs : List Char), cs.length ≤ fuel →
      (0 < countWhitelistAux names fuel cs ↔
        whitelistedSomewhere names cs = true) := by
  intro fuel
  induction fuel with
  | zero =>
    intro cs h
    have hnil : cs = [] := List.eq_nil_of_length_eq_zero (Nat.le_zero.mp h)
    subst hnil
    simp [countWhitelistAux, whitelistedSomewhere]
  | succ fuel ih =>
    intro cs h
    cases cs with
    | nil => simp [countWhitelistAux, whitelistedSomewhere]
    | cons c rest =>
      cases hm : whitelistMatchAt names (c :: rest) with
      | some k => simp [countWhitelistAux, whitelistedSomewhere, hm]
      | none =>
        have hlen : rest.length ≤ fuel := by
          simp only [List.length_cons] at h
          omega
        simp [countWhitelistAux, whitelistedSomewhere, hm, ih rest hlen]

/-- C7 counterexample: a path under two whitelisted `node_modules/foo`
segments.  The claim's reading (whitelisted iff the name is listed,
regardless of how many whitelisted names appear along the path) keeps the
path, but `_isNodeModulesDir` tests `!match || match.length > 1`, so the
two matches make the code ignore it. -/
theorem c7_counterexample_double_whitelist :
    ignorePath (fun _ => false) false (getWhiteList (some ["foo"]))
        "/p/node_modules/foo/node_modules/foo/x.js" = true ∧
    specIgnore (fun _ => false) false (getWhiteList (some ["foo"]))
        "/p/node_modules/foo/node_modules/foo/x.js" = false ∧
    countWhitelistMatches ["foo"]
        "/p/node_modules/foo/node_modules/foo/x.js" = 2 := by
  exact ⟨by decide, by decide, by decide⟩

/-- C7 (amended): the ignore predicate returns true iff the path matches
the configured ignore pattern, or lies under a `node_modules` segment and
is not whitelisted (with `retainAllFiles` overriding the exclusion) — where
"whitelisted" means the whitelist regex matches exactly once along the
path: with a whitelist installed, a `node_modules` path is kept iff the
match count is one; the count is positive iff some `/node_modules/<name>`
occurrence with a listed name (followed by `/` or the end) exists; and on
paths carrying at most one such occurrence the code agrees with the spec's
count-insensitive reading. -/
theorem c7_whitelist_exactly_once (ignorePat : String → Bool)
    (retain : Bool) (names : List String) (p : String) :
    (strContains p NODE_MODULES = true → ignorePat p = false →
      (ignorePath ignorePat false (some names) p = false ↔
        countWhitelistMatches names p = 1)) ∧
    (0 < countWhitelistMatches names p ↔
      whitelistedSomewhere names p.data = true) ∧
    (countWhitelistMatches names p ≤ 1 →
      ignorePath ignorePat retain (some names) p =
        specIgnore ignorePat retain (some names) p) := by
  have hiff : 0 < countWhitelistMatches names p ↔
      whitelistedSomewhere names p.data = true :=
    countWhitelistAux_pos_iff names p.data.length p.data le_rfl
  refine ⟨fun hc hp => ?_, hiff, fun hle => ?_⟩
  · have hcode : ignorePath ignorePat false (some names) p =
        ((countWhitelistMatches names p == 0) ||
          decide (countWhitelistMatches names p > 1)) := by
      simp [ignorePath, isNodeModulesDir, hc, hp]
    rw [hcode]
    constructor
    · intro h
      rw [Bool.or_eq_false_iff] at h
      have h1 : countWhitelistMatches names p ≠ 0 := by
        simpa using h.1
      have h2 : ¬countWhitelistMatches names p > 1 := by
        simpa using h.2
      omega
    · intro h
      rw [h]
      decide
  · rcases Nat.lt_or_ge (countWhitelistMatches names p) 1 with h0 | h1
    · have hc0 : countWhitelistMatches names p = 0 := by omega
      have hsw : whitelistedSomewhere names p.data = false := by
        cases hsw : whitelistedSomewhere names p.data
        · rfl
        · exact absurd (hiff.mpr hsw) (by omega)
      simp only [ignorePath, specIgnore, isNodeModulesDir, hc0, hsw]
      cases hcc : strContains p NODE_MODULES <;> simp
    · have hc1 : countWhitelistMatches names p = 1 := by omega
      have hsw : whitelistedSomewhere names p.data = true :=
        hiff.mp (by omega)
      simp only [ignorePath, specIgnore, isNodeModulesDir, hc1, hsw]
      cases hcc : strContains p NODE_MODULES <;> simp

/-- Witness for C7 on a path with exactly one whitelisted occurrence. -/
theorem c7_whitelist_exactly_once_witness :
    countWhitelistMatches ["foo"] "/a/node_modules/foo/x.js" ≤ 1 ∧
    ignorePath (fun _ => false) false (some ["foo"])
        "/a/node_modules/foo/x.js" =
      specIgnore (fun _ => false) false (some ["foo"])
        "/a/node_modules/foo/x.js" :=
  ⟨by decide,
    (c7_whitelist_exactly_once (fun _ => false) false ["foo"]
      "/a/node_modules/foo/x.js").2.2 (by decide)⟩

/-! ## C6 -/

theorem leBytes_length (k : Nat) : ∀ n : Nat, (leBytes k n).length = k := by
  induction k with
  | zero => intro n; rfl
  | succ k ih => intro n; simp [leBytes, ih]

theorem md5Bytes_length (msg : List Nat) : (md5Bytes msg).length = 16 := by
  simp [md5Bytes, leBytes_length]

theorem flatten_byteHex_length (l : List Nat) :
    (l.map byteHex).flatten.length = 2 * l.length := by
  induction l with
  | nil => rfl
  | cons b bs ih =>
    simp only [List.map_cons, List.flatten_cons, List.length_append, ih,
      byteHex, List.length_cons, List.length_nil]
    omega

/-- Every hex digest has exactly 32 characters. -/
theorem md5Hex_length (s : String) : (md5Hex s).length = 32 := by
  show ((md5Bytes (strBytes s)).map byteHex).flatten.length = 32
  rw [flatten_byteHex_length, md5Bytes_length]

/-- Cancel a common prefix and the fixed-width digest tail of two cache
file names. -/
theorem cachePath_inj_aux (a n1 n2 d1 d2 : String)
    (hl : d1.length = d2.length)
    (h : a ++ n1 ++ "-" ++ d1 = a ++ n2 ++ "-" ++ d2) :
    n1 = n2 ∧ d1 = d2 := by
  have hl' : d1.data.length = d2.data.length := hl
  have hd := congrArg String.data h
  simp only [String.data_append, List.append_assoc] at hd
  have hd2 := List.append_cancel_left hd
  have hlen : ("-".data ++ d1.data).length = ("-".data ++ d2.data).length := by
    simp only [List.length_append, hl']
  obtain ⟨hn, hrest⟩ := List.append_inj' hd2 hlen
  have hdd : d1.data = d2.data := List.append_cancel_left hrest
  exact ⟨String.ext hn, String.ext hdd⟩

set_option maxRecDepth 1000000

/-- C6 counterexample: the roots are joined with `:` before hashing, so the
distinct root lists `["a", "b"]` and `["a:b"]` feed the identical token
string to the digest and the two configurations share one cache file path. -/
theorem c6_counterexample_join_collision :
    (⟨"/tmp", "jest", "1.0.0", ["a", "b"], ["js"], ["ios"], "mock"⟩ :
        CacheConfig).roots ≠
      (⟨"/tmp", "jest", "1.0.0", ["a:b"], ["js"], ["ios"], "mock"⟩ :
        CacheConfig).roots ∧
    cacheFilePathOfConfig
        ⟨"/tmp", "jest", "1.0.0", ["a", "b"], ["js"], ["ios"], "mock"⟩ =
      cacheFilePathOfConfig
        ⟨"/tmp", "jest", "1.0.0", ["a:b"], ["js"], ["ios"], "mock"⟩ := by
  exact ⟨by decide, by rfl⟩

/-- C6 (amended): the cache file path is a pure function of the
configuration, structured as the cache directory joined with the sanitized
name, a `-`, and the 32-character MD5 hex digest of the concatenated
tokens; two configurations with the same cache directory receive the same
path exactly when both their sanitized names and their digests agree — so
any difference in sanitized name or digest separates the paths, while
configurations whose token concatenations coincide (the `:`-join is lossy
across list boundaries) or whose digests collide share one path. -/
theorem c6_cache_path_structure (cfg1 cfg2 : CacheConfig)
    (hdir : cfg1.cacheDirectory = cfg2.cacheDirectory) :
    (∀ cfg : CacheConfig, cacheFilePathOfConfig cfg =
      cfg.cacheDirectory ++ "/" ++ sanitizeName cfg.name ++ "-" ++
        md5Hex (cacheHashInput cfg)) ∧
    (∀ s : String, (md5Hex s).length = 32) ∧
    (cacheFilePathOfConfig cfg1 = cacheFilePathOfConfig cfg2 ↔
      (sanitizeName cfg1.name = sanitizeName cfg2.name ∧
        md5Hex (cacheHashInput cfg1) = md5Hex (cacheHashInput cfg2))) := by
  refine ⟨fun _ => rfl, md5Hex_length, ?_⟩
  constructor
  · intro h
    have h' : (cfg1.cacheDirectory ++ "/") ++ sanitizeName cfg1.name ++
          "-" ++ md5Hex (cacheHashInput cfg1) =
        (cfg1.cacheDirectory ++ "/") ++ sanitizeName cfg2.name ++ "-" ++
          md5Hex (cacheHashInput cfg2) := by
      rw [show ((cfg1.cacheDirectory ++ "/") ++ sanitizeName cfg1.name ++
            "-" ++ md5Hex (cacheHashInput cfg1)) =
          cacheFilePathOfConfig cfg1 from rfl, h, hdir]
      rfl
    exact cachePath_inj_aux (cfg1.cacheDirectory ++ "/") _ _ _ _
      (by rw [md5Hex_length, md5Hex_length]) h'
  · rintro ⟨h1, h2⟩
    show (cfg1.cacheDirectory ++ "/") ++ sanitizeName cfg1.name ++ "-" ++
        md5Hex (cacheHashInput cfg1) =
      (cfg2.cacheDirectory ++ "/") ++ sanitizeName cfg2.name ++ "-" ++
        md5Hex (cacheHashInput cfg2)
    rw [hdir, h1, h2]

/-- Witness for C6 on two configurations sharing a cache directory. -/
theorem c6_cache_path_structure_witness :
    (⟨"/tmp", "alpha", "1", [], [], [], ""⟩ :
        CacheConfig).cacheDirectory =
      (⟨"/tmp", "beta", "1", [], [], [], ""⟩ : CacheConfig).cacheDirectory ∧
    (cacheFilePathOfConfig ⟨"/tmp", "alpha", "1", [], [], [], ""⟩ =
        cacheFilePathOfConfig ⟨"/tmp", "beta", "1", [], [], [], ""⟩ ↔
      (sanitizeName "alpha" = sanitizeName "beta" ∧
        md5Hex (cacheHashInput ⟨"/tmp", "alpha", "1", [], [], [], ""⟩) =
          md5Hex (cacheHashInput ⟨"/tmp", "beta", "1", [], [], [], ""⟩))) :=
  ⟨rfl, (c6_cache_path_structure ⟨"/tmp", "alpha", "1", [], [], [], ""⟩
    ⟨"/tmp", "beta", "1", [], [], [], ""⟩ rfl).2.2⟩

end HasteMapSpec
